import Mathlib

/-!
Shallow embedding of the `watchman` package (a polling file-change watcher)
and verification of its specification.

Modelling choices:
* Byte slices (`[]byte` / `FileData`) are `List Nat`.
* The filesystem is a pure structure `Fs` giving, per path, the result of
  `os.Stat` (`statRes`, `none` = success) and of `os.Open` (`openRes`).
  A successfully opened handle is modelled by the outcome of consuming it:
  `Handle := Except Err FileData` (reading all bytes either fails or yields
  the content), so a `FileReader` is a function `Handle → Except Err FileData`.
* Go pointers `*File` are identifiers `Nat` resolved through a heap
  `Nat → File`; pointer equality is identifier equality, and the in-place
  mutation `f.fileData = data` is a pointwise heap update.
* The unbuffered channels are modelled by the values sent during one scan
  pass: the list of errors sent on `errChan` and the optional `Event` sent
  on `eventChan`.
-/

namespace watchman

/-- Error values of the package: the three declared sentinels plus the
errors produced by the operating system (`os.Stat` / `os.Open` failures)
and by user-supplied readers. -/
inductive Err where
  | invalidFd
  | invalidFile
  | invalidDuration
  | osError (op : String) (path : String)
  | readerError (msg : String)
deriving DecidableEq, Repr

/-- `FileData` is `[]byte`. -/
abbrev FileData := List Nat

/-- The observable behaviour of an open file handle: consuming it yields
either all bytes or a read error. -/
abbrev Handle := Except Err FileData

/-- `FileReader`: `func(file *os.File) (FileData, error)`. -/
abbrev FileReader := Handle → Except Err FileData

/-- A pure filesystem: per path, the result of `os.Stat` (`none` means
success) and of `os.Open`. -/
structure Fs where
  statRes : String → Option Err
  openRes : String → Except Err Handle

/-- The `File` struct after construction (`NewFile` guarantees a non-nil
reader, so `reader` is total here). -/
structure File where
  fileName : String
  fileData : FileData
  reader : FileReader
  tag : String

/-- The `File` struct during construction: the Go zero value has a nil
reader, modelled as `none`. -/
structure FilePre where
  fileName : String := ""
  reader : Option FileReader := none
  tag : String := ""

/-- The `Watchman` struct (registry of `*File` ids and the poll interval;
the ticker and channels are runtime artifacts modelled by pass outputs).
Durations are nanoseconds, as in Go's `time.Duration`. -/
structure Watchman where
  files : List Nat := []
  pollInterval : Nat := 0
deriving DecidableEq, Repr

/-- `time.Second` in nanoseconds. -/
def second : Nat := 1000000000

/-- `NewOpt`: mutates the watcher and returns an error; Go's `New`
discards the error, so both components are returned. -/
abbrev NewOpt := Watchman → Watchman × Option Err

/-- `NewFileOpt`: mutates the file under construction or fails. -/
abbrev NewFileOpt := FilePre → Except Err FilePre

/-- `ReadFile`: `ioutil.ReadAll` on the handle — propagates a read error,
otherwise returns the raw bytes. -/
def ReadFile : FileReader := fun h => h

/-- `New(opts ...NewOpt) *Watchman`: applies each option, DISCARDING the
error each option returns (the Go code calls `opt(&w)` and ignores the
result), then defaults a zero poll interval to 10 seconds. -/
def New (opts : List NewOpt) : Watchman :=
  let w := opts.foldl (fun w opt => (opt w).1) {}
  if w.pollInterval = 0 then { w with pollInterval := 10 * second } else w

/-- `WithPollInterval`: rejects a zero duration with `ErrInvalidDuration`,
otherwise sets the interval. -/
def WithPollInterval (duration : Nat) : NewOpt := fun w =>
  if duration = 0 then (w, some Err.invalidDuration)
  else ({ w with pollInterval := duration }, none)

/-- `WithReader`: sets the reader, never fails. -/
def WithReader (reader : FileReader) : NewFileOpt := fun f =>
  Except.ok { f with reader := some reader }

/-- `WithTag`: sets the tag, never fails. -/
def WithTag (tag : String) : NewFileOpt := fun f =>
  Except.ok { f with tag := tag }

/-- The option-application loop inside `NewFile`: apply each option in
order, returning the first error. -/
def applyFileOpts : List NewFileOpt → FilePre → Except Err FilePre
  | [], f => Except.ok f
  | opt :: rest, f =>
    match opt f with
    | Except.error e => Except.error e
    | Except.ok f' => applyFileOpts rest f'

/-- `NewFile(fileName string, opts ...NewFileOpt) (*File, error)`:
stat the path (propagating the stat error on failure), set the name,
apply the options, default the reader to `ReadFile`, open the file and
read the initial data; any failure returns the error and no `File`. -/
def NewFile (fs : Fs) (fileName : String) (opts : List NewFileOpt) :
    Except Err File :=
  match fs.statRes fileName with
  | some e => Except.error e
  | none =>
    match applyFileOpts opts { fileName := fileName } with
    | Except.error e => Except.error e
    | Except.ok f =>
      let rdr := f.reader.getD ReadFile
      match fs.openRes f.fileName with
      | Except.error e => Except.error e
      | Except.ok h =>
        match rdr h with
        | Except.error e => Except.error e
        | Except.ok data =>
          Except.ok { fileName := f.fileName, fileData := data,
                      reader := rdr, tag := f.tag }

/-- Outcome of the scan-loop body for one descriptor. -/
inductive ScanOutcome where
  | openFailed (e : Err)
  | readFailed (e : Err)
  | changed (newData : FileData)
  | unchanged
deriving DecidableEq, Repr

/-- The body of the loop in `publishChanges` for one descriptor:
open the file (on failure, report and continue), run the reader
(on failure, report), otherwise compare with the stored snapshot. -/
def scanFile (fs : Fs) (f : File) : ScanOutcome :=
  match fs.openRes f.fileName with
  | Except.error e => ScanOutcome.openFailed e
  | Except.ok h =>
    match f.reader h with
    | Except.error e => ScanOutcome.readFailed e
    | Except.ok data =>
      if data = f.fileData then ScanOutcome.unchanged
      else ScanOutcome.changed data

/-- The heap update performed by `f.fileData = data` through the pointer
`fid`. -/
def updateData (heap : Nat → File) (fid : Nat) (d : FileData) : Nat → File :=
  fun i => if i = fid then { heap i with fileData := d } else heap i

/-- Result of one scan pass: the heap after the in-place snapshot updates,
the errors sent on the error channel (in order), and the accumulated
`event.files` batch (in registry order). -/
structure PassResult where
  heap : Nat → File
  errs : List Err
  changedFiles : List Nat

/-- The loop of `publishChanges`: for each registered descriptor, open and
read; an open failure emits the error and continues; a read failure emits
the error; a differing snapshot appends the descriptor to the batch and
stores the new snapshot; an equal snapshot does nothing. -/
def scanLoop (fs : Fs) (heap : Nat → File) : List Nat → PassResult
  | [] => ⟨heap, [], []⟩
  | fid :: rest =>
    match scanFile fs (heap fid) with
    | ScanOutcome.openFailed e =>
      let r := scanLoop fs heap rest
      ⟨r.heap, e :: r.errs, r.changedFiles⟩
    | ScanOutcome.readFailed e =>
      let r := scanLoop fs heap rest
      ⟨r.heap, e :: r.errs, r.changedFiles⟩
    | ScanOutcome.unchanged => scanLoop fs heap rest
    | ScanOutcome.changed d =>
      let r := scanLoop fs (updateData heap fid d) rest
      ⟨r.heap, r.errs, fid :: r.changedFiles⟩

/-- `publishChanges`: run the scan loop, then send the batch on the event
channel only if it is non-empty (`if len(event.files) > 0`). -/
def publishChanges (fs : Fs) (heap : Nat → File) (files : List Nat) :
    PassResult × Option (List Nat) :=
  let r := scanLoop fs heap files
  (r, if 0 < r.changedFiles.length then some r.changedFiles else none)

/-- `AddFile`: appends to the registry, always returns a nil error. -/
def AddFile (w : Watchman) (file : Nat) : Watchman × Option Err :=
  ({ w with files := w.files ++ [file] }, none)

/-- `RemoveFile`: find the first registry slot holding the same pointer,
overwrite it with the last element and truncate; no-op when absent. -/
def RemoveFile (files : List Nat) (file : Nat) : List Nat :=
  match files.findIdx? (fun f => f == file) with
  | none => files
  | some idx => (files.set idx (files.getLastD 0)).dropLast

/-- `Find`: filter the registry by a caller-supplied predicate, in registry
order. -/
def Find (heap : Nat → File) (files : List Nat) (filter : File → Bool) :
    List Nat :=
  files.filter (fun fid => filter (heap fid))

/-- `SetTag`. -/
def SetTag (f : File) (tag : String) : File := { f with tag := tag }

/-- `GetTag`. -/
def GetTag (f : File) : String := f.tag

/-- The combined open-then-read result for one descriptor (used to state
properties about "a successful read"). -/
def readResult (fs : Fs) (f : File) : Except Err FileData :=
  match fs.openRes f.fileName with
  | Except.error e => Except.error e
  | Except.ok h => f.reader h

/-- Whether the scan-loop body fails (open or reader failure) for a
descriptor. -/
def scanFailed (fs : Fs) (f : File) : Bool :=
  match scanFile fs f with
  | ScanOutcome.openFailed _ => true
  | ScanOutcome.readFailed _ => true
  | _ => false

/-- A filesystem with one readable state: every stat succeeds and every
open yields content `[1]`. -/
def fsA : Fs :=
  { statRes := fun _ => none, openRes := fun _ => Except.ok (Except.ok [1]) }

/-- A descriptor for path `a` holding snapshot `[1]` with the raw reader. -/
def fA : File :=
  { fileName := "a", fileData := [1], reader := ReadFile, tag := "" }

/-- A heap where every pointer resolves to `fA`. -/
def heapA : Nat → File := fun _ => fA

/-- The same filesystem after the file content changed to `[2]`. -/
def fsChange : Fs :=
  { statRes := fun _ => none, openRes := fun _ => Except.ok (Except.ok [2]) }

/-- A filesystem where the watched path is missing: stat and open fail
with the operating-system error. -/
def fsMissing : Fs :=
  { statRes := fun _ => some (Err.osError "stat" "missing.txt"),
    openRes := fun _ => Except.error (Err.osError "open" "missing.txt") }

/-- A filesystem where stat succeeds but every open fails. -/
def fsOpenErr : Fs :=
  { statRes := fun _ => none,
    openRes := fun _ => Except.error (Err.osError "open" "a") }

/-- A descriptor for path `b` holding snapshot `[1]`. -/
def fB : File :=
  { fileName := "b", fileData := [1], reader := ReadFile, tag := "" }

/-- A filesystem where path `a` reads as `[2]` and path `b` fails to
open. -/
def fsMixed : Fs :=
  { statRes := fun _ => none,
    openRes := fun p =>
      if p = "a" then Except.ok (Except.ok [2])
      else Except.error (Err.osError "open" "b") }

/-- A heap binding pointer `0` to `fA` and every other pointer to `fB`. -/
def heapAB : Nat → File := fun i => if i = 0 then fA else fB

/-- A successful combined read determines the scan outcome: unchanged when
it matches the stored snapshot, changed otherwise. -/
theorem scanFile_of_readResult (fs : Fs) (f : File) (d : FileData)
    (h : readResult fs f = Except.ok d) :
    scanFile fs f =
      if d = f.fileData then ScanOutcome.unchanged else ScanOutcome.changed d := by
  unfold readResult at h
  cases hop : fs.openRes f.fileName with
  | error e => rw [hop] at h; exact absurd h (by simp)
  | ok hdl =>
    rw [hop] at h
    change f.reader hdl = Except.ok d at h
    simp [scanFile, hop, h]

/-- After the in-place snapshot update, re-scanning the same descriptor
against the same filesystem reports no change. -/
theorem scanFile_update_self (fs : Fs) (f : File) (d : FileData)
    (h : scanFile fs f = ScanOutcome.changed d) :
    scanFile fs { f with fileData := d } = ScanOutcome.unchanged := by
  cases hop : fs.openRes f.fileName with
  | error e => simp [scanFile, hop] at h
  | ok hdl =>
    cases hrd : f.reader hdl with
    | error e => simp [scanFile, hop, hrd] at h
    | ok data =>
      simp only [scanFile, hop, hrd] at h
      by_cases hd : data = f.fileData
      · rw [if_pos hd] at h; cases h
      · rw [if_neg hd] at h
        have hdd : data = d := by
          injection h
        subst hdd
        simp [scanFile, hop, hrd]

/-- A descriptor whose scan reports no change is left untouched by the
whole pass and never enters the change batch. -/
theorem scanLoop_unchanged (fs : Fs) (files : List Nat) (fid : Nat) :
    ∀ heap : Nat → File, scanFile fs (heap fid) = ScanOutcome.unchanged →
      (scanLoop fs heap files).heap fid = heap fid ∧
      fid ∉ (scanLoop fs heap files).changedFiles := by
  induction files with
  | nil => intro heap _; exact ⟨rfl, by simp [scanLoop]⟩
  | cons a rest ih =>
    intro heap hun
    by_cases ha : a = fid
    · subst ha
      rw [scanLoop, hun]
      exact ih heap hun
    · rw [scanLoop]
      cases hsc : scanFile fs (heap a) with
      | openFailed e => exact ih heap hun
      | readFailed e => exact ih heap hun
      | unchanged => exact ih heap hun
      | changed d =>
        have hfid : updateData heap a d fid = heap fid := by
          unfold updateData
          rw [if_neg (fun hh : fid = a => ha hh.symm)]
        have hun' : scanFile fs (updateData heap a d fid) = ScanOutcome.unchanged := by
          rw [hfid]; exact hun
        rcases ih (updateData heap a d) hun' with ⟨h1, h2⟩
        refine ⟨by rw [h1, hfid], ?_⟩
        simp only [List.mem_cons]
        rintro (rfl | hm)
        · exact ha rfl
        · exact h2 hm

/-- A registered descriptor whose scan reports a change enters the change
batch, and the pass leaves its snapshot set to the newly read value. -/
theorem scanLoop_changed (fs : Fs) (files : List Nat) (fid : Nat) (d : FileData) :
    ∀ heap : Nat → File, scanFile fs (heap fid) = ScanOutcome.changed d →
      fid ∈ files →
      (scanLoop fs heap files).heap fid = { heap fid with fileData := d } ∧
      fid ∈ (scanLoop fs heap files).changedFiles := by
  induction files with
  | nil => intro heap _ hm; cases hm
  | cons a rest ih =>
    intro heap hch hm
    by_cases ha : a = fid
    · subst ha
      rw [scanLoop, hch]
      have hfid : updateData heap a d a = { heap a with fileData := d } := by
        unfold updateData
        rw [if_pos rfl]
      have hun : scanFile fs (updateData heap a d a) = ScanOutcome.unchanged := by
        rw [hfid]; exact scanFile_update_self fs (heap a) d hch
      rcases scanLoop_unchanged fs rest a (updateData heap a d) hun with ⟨h1, _⟩
      exact ⟨by rw [h1, hfid], by simp⟩
    · have hm' : fid ∈ rest := by
        rcases List.mem_cons.mp hm with h | h
        · exact absurd h.symm ha
        · exact h
      rw [scanLoop]
      cases hsc : scanFile fs (heap a) with
      | openFailed e => exact (ih heap hch hm')
      | readFailed e => exact (ih heap hch hm')
      | unchanged => exact ih heap hch hm'
      | changed d' =>
        have hfid : updateData heap a d' fid = heap fid := by
          unfold updateData
          rw [if_neg (fun hh : fid = a => ha hh.symm)]
        have hch' : scanFile fs (updateData heap a d' fid) = ScanOutcome.changed d := by
          rw [hfid]; exact hch
        rcases ih (updateData heap a d') hch' hm' with ⟨h1, h2⟩
        exact ⟨by rw [h1, hfid], List.mem_cons_of_mem a h2⟩

/-- A descriptor whose scan fails keeps its stored snapshot across the
whole pass. -/
theorem scanLoop_failed_heap (fs : Fs) (files : List Nat) (fid : Nat) :
    ∀ heap : Nat → File, scanFailed fs (heap fid) = true →
      (scanLoop fs heap files).heap fid = heap fid := by
  induction files with
  | nil => intro heap _; rfl
  | cons a rest ih =>
    intro heap hf
    rw [scanLoop]
    by_cases ha : a = fid
    · subst ha
      unfold scanFailed at hf
      cases hsc : scanFile fs (heap a) with
      | openFailed e => exact ih heap hf
      | readFailed e => exact ih heap hf
      | unchanged => rw [hsc] at hf; cases hf
      | changed d => rw [hsc] at hf; cases hf
    · cases hsc : scanFile fs (heap a) with
      | openFailed e => exact ih heap hf
      | readFailed e => exact ih heap hf
      | unchanged => exact ih heap hf
      | changed d =>
        have hfid : updateData heap a d fid = heap fid := by
          unfold updateData
          rw [if_neg (fun hh : fid = a => ha hh.symm)]
        have hf' : scanFailed fs (updateData heap a d fid) = true := by
          rw [hfid]; exact hf
        rw [ih (updateData heap a d) hf', hfid]

/-- A registered descriptor whose scan fails contributes its error to the
errors sent during the pass. -/
theorem scanLoop_err_mem (fs : Fs) (files : List Nat) (fid : Nat) (e : Err) :
    ∀ heap : Nat → File,
      (scanFile fs (heap fid) = ScanOutcome.openFailed e ∨
       scanFile fs (heap fid) = ScanOutcome.readFailed e) →
      fid ∈ files → e ∈ (scanLoop fs heap files).errs := by
  induction files with
  | nil => intro heap _ hm; cases hm
  | cons a rest ih =>
    intro heap he hm
    rw [scanLoop]
    by_cases ha : a = fid
    · subst ha
      rcases he with he | he
      · rw [he]; exact List.mem_cons_self e _
      · rw [he]; exact List.mem_cons_self e _
    · have hm' : fid ∈ rest := by
        rcases List.mem_cons.mp hm with h | h
        · exact absurd h.symm ha
        · exact h
      cases hsc : scanFile fs (heap a) with
      | openFailed e' => exact List.mem_cons_of_mem e' (ih heap he hm')
      | readFailed e' => exact List.mem_cons_of_mem e' (ih heap he hm')
      | unchanged => exact ih heap he hm'
      | changed d =>
        have hfid : updateData heap a d fid = heap fid := by
          unfold updateData
          rw [if_neg (fun hh : fid = a => ha hh.symm)]
        have he' : scanFile fs (updateData heap a d fid) = ScanOutcome.openFailed e ∨
            scanFile fs (updateData heap a d fid) = ScanOutcome.readFailed e := by
          rw [hfid]; exact he
        exact ih (updateData heap a d) he' hm'

/-- A successfully constructed descriptor scans as unchanged against the
filesystem it was constructed from: its stored snapshot is exactly what
the reader produces. -/
theorem newFile_scanFile (fs : Fs) (name : String) (opts : List NewFileOpt)
    (f : File) (h : NewFile fs name opts = Except.ok f) :
    scanFile fs f = ScanOutcome.unchanged := by
  unfold NewFile at h
  cases hst : fs.statRes name with
  | some e => rw [hst] at h; cases h
  | none =>
    rw [hst] at h
    cases hopts : applyFileOpts opts { fileName := name } with
    | error e => rw [hopts] at h; cases h
    | ok f1 =>
      rw [hopts] at h
      simp only at h
      cases hop : fs.openRes f1.fileName with
      | error e => rw [hop] at h; cases h
      | ok hdl =>
        cases hrd : f1.reader.getD ReadFile hdl with
        | error e =>
          simp only [hop, hrd] at h
          exact absurd h (by simp)
        | ok data =>
          simp only [hop, hrd, Except.ok.injEq] at h
          subst h
          simp [scanFile, hop, hrd]

/-- On a non-empty list the last-or-default value ignores the default. -/
theorem getLastD_cons_default (c : Nat) (l : List Nat) (a b : Nat) :
    (c :: l).getLastD a = (c :: l).getLastD b := by
  rw [List.getLastD_cons, List.getLastD_cons]

/-- Removing an absent pointer is a no-op. -/
theorem removeFile_eq_of_not_mem (files : List Nat) (fid : Nat)
    (h : fid ∉ files) : RemoveFile files fid = files := by
  unfold RemoveFile
  have hnone : files.findIdx? (fun f => f == fid) = none := by
    rw [List.findIdx?_eq_none_iff]
    intro x hx
    simp only [beq_eq_false_iff_ne, ne_eq]
    intro hxe
    exact h (hxe ▸ hx)
  rw [hnone]

/-- Removing the head pointer: overwrite slot 0 with the last element and
drop the last slot. -/
theorem removeFile_cons_self (fid : Nat) (rest : List Nat) :
    RemoveFile (fid :: rest) fid =
      ((fid :: rest).getLastD 0 :: rest).dropLast := by
  unfold RemoveFile
  have hidx : (fid :: rest).findIdx? (fun f => f == fid) = some 0 := by
    rw [List.findIdx?_cons]
    simp
  simp only [hidx]
  rw [List.set_cons_zero]

/-- Removing from the tail commutes with keeping a non-matching head. -/
theorem removeFile_cons_ne (a fid : Nat) (rest : List Nat)
    (ha : a ≠ fid) (hm : fid ∈ rest) :
    RemoveFile (a :: rest) fid = a :: RemoveFile rest fid := by
  obtain ⟨j, hj⟩ : ∃ j, rest.findIdx? (fun f => f == fid) = some j := by
    have hsome : (rest.findIdx? (fun f => f == fid)).isSome = true := by
      rw [List.findIdx?_isSome]
      rw [List.any_eq_true]
      exact ⟨fid, hm, by simp⟩
    exact Option.isSome_iff_exists.mp hsome
  have hba : (a == fid) = false := by simp [ha]
  have hidx : (a :: rest).findIdx? (fun f => f == fid) = some (j + 1) := by
    simp [List.findIdx?_cons, hba, hj]
  obtain ⟨b, rest', rfl⟩ : ∃ b rest', rest = b :: rest' := by
    cases rest with
    | nil => cases hm
    | cons b rest' => exact ⟨b, rest', rfl⟩
  unfold RemoveFile
  simp only [hidx, hj]
  rw [List.set_cons_succ]
  have hlast : (a :: b :: rest').getLastD 0 = (b :: rest').getLastD 0 := by
    rw [List.getLastD_cons]
    exact getLastD_cons_default b rest' a 0
  rw [hlast]
  have hsetne : (b :: rest').set j ((b :: rest').getLastD 0) ≠ [] := by
    intro hh
    have := congrArg List.length hh
    simp at this
  rw [List.dropLast_cons_of_ne_nil hsetne]

/-- The swap-remove performed by `RemoveFile` is a permutation of erasing
the first occurrence. -/
theorem removeFile_perm_erase (fid : Nat) :
    ∀ files : List Nat, fid ∈ files →
      List.Perm (RemoveFile files fid) (files.erase fid) := by
  intro files
  induction files with
  | nil => intro hm; cases hm
  | cons a rest ih =>
    intro hm
    by_cases ha : a = fid
    · subst ha
      rw [removeFile_cons_self]
      rw [List.erase_cons_head]
      cases rest with
      | nil => simp
      | cons b rest' =>
        have hne : b :: rest' ≠ [] := by simp
        rw [List.getLastD_cons]
        have hlast : (b :: rest').getLastD a = (b :: rest').getLast hne := by
          rw [List.getLastD_eq_getLast?, List.getLast?_eq_getLast (b :: rest') hne]
          rfl
        rw [hlast]
        rw [List.dropLast_cons_of_ne_nil hne]
        have hperm : List.Perm
            ((b :: rest').getLast hne :: (b :: rest').dropLast)
            ((b :: rest').dropLast ++ [(b :: rest').getLast hne]) :=
          (List.perm_append_singleton _ _).symm
        have hsplit : (b :: rest').dropLast ++ [(b :: rest').getLast hne] =
            b :: rest' := List.dropLast_concat_getLast hne
        rw [hsplit] at hperm
        exact hperm
    · have hm' : fid ∈ rest := by
        rcases List.mem_cons.mp hm with h | h
        · exact absurd h.symm ha
        · exact h
      rw [removeFile_cons_ne a fid rest ha hm']
      rw [List.erase_cons_tail (by simp [ha])]
      exact List.Perm.cons a (ih hm')

/-- The event channel carries the batch exactly when it is non-empty. -/
theorem publishChanges_snd (fs : Fs) (heap : Nat → File) (files : List Nat) :
    (publishChanges fs heap files).2 =
      if 0 < (scanLoop fs heap files).changedFiles.length
      then some (scanLoop fs heap files).changedFiles else none := rfl

/-- Claim C1: the spec requires `New` with `WithPollInterval 0` to fail
with `InvalidDuration`, but the code discards the option's error: the
option itself reports `invalidDuration`, yet construction succeeds and
yields a watcher with the 10-second default interval. -/
theorem c1_zero_interval_not_rejected :
    New [WithPollInterval 0] =
      { files := [], pollInterval := 10 * second } ∧
    (WithPollInterval 0 { files := [], pollInterval := 0 }).2 =
      some Err.invalidDuration :=
  ⟨rfl, rfl⟩

/-- Claim C2 counterexample: on a missing path, `NewFile` fails with the
propagated stat error, which is not the `invalidFile` sentinel. -/
theorem c2_counterexample :
    NewFile fsMissing "missing.txt" [] ≠ Except.error Err.invalidFile ∧
    NewFile fsMissing "missing.txt" [] =
      Except.error (Err.osError "stat" "missing.txt") := by
  refine ⟨?_, rfl⟩
  intro h
  rw [show NewFile fsMissing "missing.txt" [] =
      Except.error (Err.osError "stat" "missing.txt") from rfl] at h
  exact absurd (Except.error.inj h) (by decide)

/-- Claim C2 (amended): for every path whose stat fails, `NewFile`
returns exactly that stat error and no descriptor. -/
theorem c2_stat_error_propagated (fs : Fs) (name : String)
    (opts : List NewFileOpt) (e : Err) (h : fs.statRes name = some e) :
    NewFile fs name opts = Except.error e := by
  unfold NewFile
  rw [h]

theorem c2_stat_error_propagated_witness :
    NewFile fsMissing "missing.txt" [] =
      Except.error (Err.osError "stat" "missing.txt") :=
  c2_stat_error_propagated fsMissing "missing.txt" []
    (Err.osError "stat" "missing.txt") rfl

/-- Claim C3: a descriptor whose open or reader invocation fails during a
pass keeps its stored snapshot, and on a later pass whose read succeeds
with value `d`, the descriptor is in that pass's change batch exactly
when `d` differs from the pre-failure snapshot. -/
theorem c3_failed_scan_preserves_snapshot (fs fs2 : Fs) (heap : Nat → File)
    (files files2 : List Nat) (fid : Nat) (d : FileData)
    (hfail : scanFailed fs (heap fid) = true)
    (hread : readResult fs2 (heap fid) = Except.ok d)
    (hmem : fid ∈ files2) :
    (scanLoop fs heap files).heap fid = heap fid ∧
    (fid ∈ (scanLoop fs2 ((scanLoop fs heap files).heap) files2).changedFiles ↔
      d ≠ (heap fid).fileData) := by
  have h1 : (scanLoop fs heap files).heap fid = heap fid :=
    scanLoop_failed_heap fs files fid heap hfail
  refine ⟨h1, ?_⟩
  by_cases hd : d = (heap fid).fileData
  · have hsc : scanFile fs2 ((scanLoop fs heap files).heap fid) =
        ScanOutcome.unchanged := by
      rw [h1, scanFile_of_readResult fs2 (heap fid) d hread, if_pos hd]
    exact iff_of_false
      (scanLoop_unchanged fs2 files2 fid ((scanLoop fs heap files).heap) hsc).2
      (fun hn => hn hd)
  · have hsc : scanFile fs2 ((scanLoop fs heap files).heap fid) =
        ScanOutcome.changed d := by
      rw [h1, scanFile_of_readResult fs2 (heap fid) d hread, if_neg hd]
    exact iff_of_true
      (scanLoop_changed fs2 files2 fid d ((scanLoop fs heap files).heap)
        hsc hmem).2
      hd

theorem c3_witness :
    (scanLoop fsOpenErr heapA [0]).heap 0 = heapA 0 ∧
    (0 ∈ (scanLoop fsA ((scanLoop fsOpenErr heapA [0]).heap) [0]).changedFiles ↔
      ([1] : FileData) ≠ (heapA 0).fileData) :=
  c3_failed_scan_preserves_snapshot fsOpenErr fsA heapA [0] [0] 0 [1]
    (by decide) rfl (by decide)

/-- Claim C4: during a pass, a registered descriptor whose read succeeds
with value `d` enters the change batch exactly when `d` differs from the
stored snapshot, and its stored snapshot is rewritten to `d` exactly in
that case (it is not written on an equal read). -/
theorem c4_snapshot_updated_iff_changed (fs : Fs) (heap : Nat → File)
    (files : List Nat) (fid : Nat) (d : FileData)
    (hmem : fid ∈ files)
    (hread : readResult fs (heap fid) = Except.ok d) :
    (fid ∈ (scanLoop fs heap files).changedFiles ↔ d ≠ (heap fid).fileData) ∧
    (scanLoop fs heap files).heap fid =
      (if d = (heap fid).fileData then heap fid
       else { heap fid with fileData := d }) := by
  have hsc := scanFile_of_readResult fs (heap fid) d hread
  by_cases hd : d = (heap fid).fileData
  · rw [if_pos hd] at hsc
    have h := scanLoop_unchanged fs files fid heap hsc
    exact ⟨iff_of_false h.2 (fun hn => hn hd), by rw [if_pos hd]; exact h.1⟩
  · rw [if_neg hd] at hsc
    have h := scanLoop_changed fs files fid d heap hsc hmem
    exact ⟨iff_of_true h.2 hd, by rw [if_neg hd]; exact h.1⟩

theorem c4_witness :
    (0 ∈ (scanLoop fsChange heapA [0]).changedFiles ↔
      ([2] : FileData) ≠ (heapA 0).fileData) ∧
    (scanLoop fsChange heapA [0]).heap 0 =
      (if ([2] : FileData) = (heapA 0).fileData then heapA 0
       else { heapA 0 with fileData := [2] }) :=
  c4_snapshot_updated_iff_changed fsChange heapA [0] 0 [2] (by decide) rfl

/-- Claim C5: a descriptor constructed by `NewFile` against a filesystem
whose content is unchanged at scan time is never put into the pass's
change batch — no spurious changed event on the first scan after
registration. -/
theorem c5_no_spurious_event (fs : Fs) (name : String)
    (opts : List NewFileOpt) (f : File) (heap : Nat → File)
    (files : List Nat) (fid : Nat)
    (hnew : NewFile fs name opts = Except.ok f)
    (hfid : heap fid = f) :
    fid ∉ (scanLoop fs heap files).changedFiles := by
  have hsc : scanFile fs (heap fid) = ScanOutcome.unchanged := by
    rw [hfid]
    exact newFile_scanFile fs name opts f hnew
  exact (scanLoop_unchanged fs files fid heap hsc).2

theorem c5_witness : 0 ∉ (scanLoop fsA heapA [0]).changedFiles :=
  c5_no_spurious_event fsA "a" [] fA heapA [0] 0 rfl rfl

/-- Claim C6: an event is sent only when the batch is non-empty, so every
delivered batch has length at least one, and a pass with an empty batch
delivers nothing. -/
theorem c6_no_empty_event (fs : Fs) (heap : Nat → File) (files : List Nat) :
    (∀ ev, (publishChanges fs heap files).2 = some ev → 1 ≤ ev.length) ∧
    ((scanLoop fs heap files).changedFiles = [] →
      (publishChanges fs heap files).2 = none) := by
  constructor
  · intro ev hev
    rw [publishChanges_snd] at hev
    by_cases hlen : 0 < (scanLoop fs heap files).changedFiles.length
    · rw [if_pos hlen] at hev
      cases hev
      exact hlen
    · rw [if_neg hlen] at hev
      cases hev
  · intro hnil
    rw [publishChanges_snd, hnil]
    rfl

theorem c6_witness :
    1 ≤ ([0] : List Nat).length ∧ (publishChanges fsA heapA [0]).2 = none :=
  ⟨(c6_no_empty_event fsChange heapA [0]).1 [0] rfl,
   (c6_no_empty_event fsA heapA [0]).2 rfl⟩

/-- Claim C7: in one pass, a change on descriptor `x` and an open or
reader failure on descriptor `y` are both reported — the error appears on
the error channel and `x` is in the delivered event batch. -/
theorem c7_error_does_not_block_scan (fs : Fs) (heap : Nat → File)
    (files : List Nat) (x y : Nat) (d : FileData) (e : Err)
    (hx : x ∈ files) (hcx : scanFile fs (heap x) = ScanOutcome.changed d)
    (hy : y ∈ files)
    (hey : scanFile fs (heap y) = ScanOutcome.openFailed e ∨
           scanFile fs (heap y) = ScanOutcome.readFailed e) :
    e ∈ (scanLoop fs heap files).errs ∧
    ∃ ev, (publishChanges fs heap files).2 = some ev ∧ x ∈ ev := by
  refine ⟨scanLoop_err_mem fs files y e heap hey hy, ?_⟩
  have hxin : x ∈ (scanLoop fs heap files).changedFiles :=
    (scanLoop_changed fs files x d heap hcx hx).2
  refine ⟨(scanLoop fs heap files).changedFiles, ?_, hxin⟩
  rw [publishChanges_snd]
  rw [if_pos (List.length_pos.mpr (List.ne_nil_of_mem hxin))]

theorem c7_witness :
    Err.osError "open" "b" ∈ (scanLoop fsMixed heapAB [0, 1]).errs ∧
    ∃ ev, (publishChanges fsMixed heapAB [0, 1]).2 = some ev ∧ 0 ∈ ev :=
  c7_error_does_not_block_scan fsMixed heapAB [0, 1] 0 1 [2]
    (Err.osError "open" "b") (by decide) (by decide) (by decide)
    (Or.inl (by decide))

/-- Claim C8: `RemoveFile` removes by pointer identity — the membership of
every other pointer is preserved regardless of paths — and removing an
absent pointer is a no-op that leaves the registry unchanged. -/
theorem c8_remove_by_identity (files : List Nat) (fid : Nat) :
    (fid ∉ files → RemoveFile files fid = files) ∧
    (∀ g, g ≠ fid → (g ∈ RemoveFile files fid ↔ g ∈ files)) := by
  constructor
  · exact removeFile_eq_of_not_mem files fid
  · intro g hg
    by_cases hm : fid ∈ files
    · rw [(removeFile_perm_erase fid files hm).mem_iff]
      exact List.mem_erase_of_ne hg
    · rw [removeFile_eq_of_not_mem files fid hm]

theorem c8_witness :
    RemoveFile [1, 2] 0 = [1, 2] ∧ (1 ∈ RemoveFile [1, 2] 0 ↔ 1 ∈ [1, 2]) :=
  ⟨(c8_remove_by_identity [1, 2] 0).1 (by decide),
   (c8_remove_by_identity [1, 2] 0).2 1 (by decide)⟩

/-- Claim C9: `RemoveFile` removes exactly one occurrence of the pointer
(one copy survives if it was added twice), preserves the multiset of the
other pointers, and — because it swaps in the last element — can change
the registry's iteration order (`RemoveFile [0, 1, 2] 0 = [2, 1]`, not
`[1, 2]`). -/
theorem c9_remove_swap_semantics (files : List Nat) (fid : Nat)
    (h : fid ∈ files) :
    (RemoveFile files fid).count fid + 1 = files.count fid ∧
    (∀ g, g ≠ fid → (RemoveFile files fid).count g = files.count g) ∧
    RemoveFile [0, 1, 2] 0 = [2, 1] := by
  have hp := removeFile_perm_erase fid files h
  refine ⟨?_, ?_, by decide⟩
  · rw [hp.count_eq, List.count_erase_self]
    have hpos : 0 < files.count fid := List.count_pos_iff.mpr h
    omega
  · intro g hg
    rw [hp.count_eq]
    exact List.count_erase_of_ne hg files

theorem c9_witness :
    (RemoveFile [0, 0] 0).count 0 + 1 = ([0, 0] : List Nat).count 0 ∧
    (RemoveFile [0, 0] 0).count 1 = ([0, 0] : List Nat).count 1 ∧
    RemoveFile [0, 1, 2] 0 = [2, 1] := by
  have h := c9_remove_swap_semantics [0, 0] 0 (by decide)
  exact ⟨h.1, h.2.1 1 (by decide), h.2.2⟩

/-- Claim C10: `SetTag` mutates only the tag — path, reader and stored
snapshot are untouched — it always succeeds, and `GetTag` returns the tag
most recently set. -/
theorem c10_settag_frame (f : File) (t t' : String) :
    (SetTag f t).fileName = f.fileName ∧
    (SetTag f t).fileData = f.fileData ∧
    (SetTag f t).reader = f.reader ∧
    GetTag (SetTag f t) = t ∧
    GetTag (SetTag (SetTag f t') t) = t :=
  ⟨rfl, rfl, rfl, rfl, rfl⟩

end watchman
